import Mathlib

/-!
# Verification of the resumable batch collection engine

Shallow embedding of the data model and operations of the repository's
data-collection scripts, together with theorems settling the specification
claims about them.

Embedded source files:
* `data_collection/extract_epo_publications_batch.py`
  (`load_done_ids`, `fetch_publications_for_entity`)
* `data_collection/retry_epo_publications_errors.py`
  (`load_error_records`, `fetch_all_publications`, `rewrite_with_replacements`,
   the tail of `main` that performs the temp-write / backup / atomic replace,
   and the replacement-record construction in `main`)
* `data_collection/run_website_enrichment_batches.py`
  (`sha256_int`/`shard_for_company_id`, the shard validation and filtering part
   of `load_eligible_company_ids`, `read_done_company_ids`, and the startup
   ordering of `main`)

Modelling conventions:
* Items fetched from the remote API are opaque; we model them as `String`.
* JSON dictionaries are modelled by structures whose fields are
  `Option`-valued when the Python code distinguishes an absent (or `null`)
  key from a present one.
* The JavaScript `fetch` wrapper evaluated in the page is an external
  capability; it is modelled as a function `Nat → Except String JsResult`
  mapping the index of the call (calls are issued one at a time, in order)
  to either a raised Playwright exception (`Except.error`) or the returned
  JS object (`Except.ok`).
* Python `while` loops are embedded with explicit fuel; a result of `none`
  means the fuel was exhausted (the Python loop would still be running).
* `hashlib.sha256` is an external library function; the sharding code is
  parametrised by an arbitrary `hash : String → Nat` in its place.
-/

/-- The JSON body returned by the publications endpoint, as accessed by the
Python code: `total` (optional integer), `publications` (list of items,
absent or `null` collapses to the empty list exactly as the Python
`data.get("publications", [])` / `... or []` accesses do), and
`nextPageToken` (absent or `null` collapses to `""`). -/
structure RespData where
  total : Option Int
  publications : List String
  nextPageToken : String
deriving DecidableEq, Repr

/-- The object produced by the in-page JavaScript fetch wrapper:
`{ ok, status, data }` on a completed HTTP round-trip, or `{ ok: false,
error }` when the JS `catch` fired.  `data := none` models a `null`
(or absent) `data` value. -/
structure JsResult where
  ok : Bool
  status : Option Int
  error : Option String
  data : Option RespData
deriving DecidableEq, Repr

/-- The fetch capability: call index ↦ outcome of `page.evaluate`.
`Except.error e` models the Playwright call itself raising `e`. -/
abbrev Fetch := Nat → Except String JsResult

/-- A convenient successful response wrapper (HTTP ok, parsed body). -/
def mkOk (d : RespData) : JsResult :=
  { ok := true, status := some 200, error := none, data := some d }

/-! ## Batch extractor: `fetch_publications_for_entity`
(`extract_epo_publications_batch.py`, lines 54–123). -/

/-- The per-entity record written by `fetch_publications_for_entity`:
* `success pubs` — `{"org_id", "name", "publications": pubs,
  "publication_count": len(pubs)}` (no `error` key, no `message` key);
* `httpFailure status errMsg` — `{"org_id", "name", "error": True,
  "http_status": result.get("status"), "message": result.get("error")}`
  (the `message` key is present, but its value may be `null`);
* `exceptFailure msg` — `{"org_id", "name", "error": True,
  "message": str(e)}` from the `except` branch. -/
inductive EntityResult where
  | success (pubs : List String)
  | httpFailure (status : Option Int) (errMsg : Option String)
  | exceptFailure (msg : String)
deriving DecidableEq, Repr

/-- Truthiness of `record.get("error")` for an `EntityResult` dict. -/
def EntityResult.isError : EntityResult → Bool
  | .success _ => false
  | .httpFailure _ _ => true
  | .exceptFailure _ => true

/-- Whether the `"message"` key is present in the `EntityResult` dict
(it is set in both failure branches, including with a `null` value in the
`httpFailure` branch; it is never set in the success branch). -/
def EntityResult.hasMessageKey : EntityResult → Bool
  | .success _ => false
  | .httpFailure _ _ => true
  | .exceptFailure _ => true

/-- The `publications` payload of a success record. -/
def EntityResult.payload : EntityResult → Option (List String)
  | .success pubs => some pubs
  | _ => none

/-- Loop body of `fetch_publications_for_entity` (lines 60–116):
`k` is the index of the next fetch call, `acc` the accumulated `all_pubs`.
Returns the record together with the number of fetch calls performed, or
`none` when the fuel runs out.  A `null` `data` value makes the Python code
raise `AttributeError` inside the `try`, landing in the `except` branch. -/
def fetchPubsLoop (f : Fetch) : Nat → Nat → List String → Option (EntityResult × Nat)
  | 0, _, _ => none
  | fuel + 1, k, acc =>
    match f k with
    | .error e => some (.exceptFailure e, 1)
    | .ok res =>
      if res.ok = false then
        some (.httpFailure res.status res.error, 1)
      else
        match res.data with
        | none => some (.exceptFailure "AttributeError", 1)
        | some d =>
          let acc1 := acc ++ d.publications
          if d.nextPageToken = "" ∨ d.publications = [] then
            some (.success acc1, 1)
          else
            match fetchPubsLoop f fuel (k + 1) acc1 with
            | none => none
            | some (r, used) => some (r, used + 1)

/-- `fetch_publications_for_entity(page, org_id, name)`: run the pagination
loop from an empty token and empty accumulator. -/
def fetch_publications_for_entity (f : Fetch) (fuel : Nat) : Option (EntityResult × Nat) :=
  fetchPubsLoop f fuel 0 []


/-! ## Retry Patcher: `fetch_all_publications`
(`retry_epo_publications_errors.py`, lines 107–169). -/

/-- Mutable locals of `fetch_all_publications` threaded through the loop:
the index of the next fetch call, and the `last_err` / `last_status`
variables. -/
structure FAState where
  callIdx : Nat
  last_err : Option String
  last_status : Option Int
deriving DecidableEq, Repr

/-- The dict returned by `fetch_all_publications`:
`ok` — `{"ok": True, "publications", "total", "attempt"}`;
`fail` — `{"ok": False, "error", "http_status", "attempt"}`. -/
inductive FAResult where
  | ok (publications : List String) (total : Option Int) (attempt : Nat)
  | fail (error : String) (http_status : Option Int) (attempt : Nat)
deriving DecidableEq, Repr

/-- The `attempt` field of the result dict. -/
def FAResult.attempt : FAResult → Nat
  | .ok _ _ a => a
  | .fail _ _ a => a

/-- Truthiness of the result's `"ok"` field. -/
def FAResult.isOk : FAResult → Bool
  | .ok _ _ _ => true
  | .fail _ _ _ => false

/-- `f"HTTP {last_status}" if last_status else "Fetch failed"` — note that a
`0` or `None` status is falsy in Python. -/
def errFallback (status : Option Int) : String :=
  match status with
  | some s => if s = 0 then "Fetch failed" else "HTTP " ++ toString s
  | none => "Fetch failed"

/-- `(res.get("error") ...) or (f"HTTP {last_status}" if last_status else
"Fetch failed")` — an absent, `null` or empty-string `error` falls through
to the status-based message (line 133–135). -/
def raisedErr (error : Option String) (status : Option Int) : String :=
  match error with
  | some e => if e = "" then errFallback status else e
  | none => errFallback status

/-- `last_err or "Fetch failed"` (lines 167 and 169). -/
def orFetchFailed (o : Option String) : String :=
  match o with
  | some s => if s = "" then "Fetch failed" else s
  | none => "Fetch failed"

/-- One attempt's `while True` pagination loop (lines 123–151), with fuel:
`pubs`/`tot` are the `pubs` and `total_from_api` locals. Returns the updated
state together with either the raised exception's message (`Except.error`,
corresponding to the `raise RuntimeError(last_err)` at line 136 or to
`page.evaluate` itself raising) or the accumulated result (`Except.ok`,
the `return` at line 152 happening right after the loop breaks). -/
def faInner (f : Fetch) : Nat → FAState → List String → Option Int →
    Option (FAState × Except String (List String × Option Int))
  | 0, _, _, _ => none
  | fuel + 1, st, pubs, tot =>
    match f st.callIdx with
    | .error e =>
      some ({ st with callIdx := st.callIdx + 1 }, .error e)
    | .ok res =>
      let st1 : FAState := { st with callIdx := st.callIdx + 1 }
      if res.ok = false then
        let msg := raisedErr res.error res.status
        some ({ st1 with last_err := some msg, last_status := res.status }, .error msg)
      else
        let d := res.data.getD { total := none, publications := [], nextPageToken := "" }
        let tot1 := if tot = none ∧ d.total.isSome then d.total else tot
        let pubs1 := if d.publications.isEmpty then pubs else pubs ++ d.publications
        if d.nextPageToken = "" then
          some (st1, .ok (pubs1, tot1))
        else
          faInner f fuel st1 pubs1 tot1

/-- The `for attempt in range(1, max_attempts + 1)` loop (lines 117–167):
`rem` counts the remaining attempts (`attempt + rem = maxA + 1` on entry,
so `rem = 0` is only reachable when `maxA = 0` and the `for` body never
runs, returning the post-loop dict of line 169).  On an attempt's failure
with `attempt < max_attempts` the session is refreshed (a side effect on
the page only — it issues no publications fetch, so `callIdx` is
unchanged) and the next attempt starts with fresh `token`/`pubs`/`total`
accumulators. -/
def faOuter (f : Fetch) (innerFuel maxA : Nat) : Nat → Nat → FAState → Option FAResult
  | 0, _, st => some (.fail (orFetchFailed st.last_err) st.last_status maxA)
  | rem + 1, attempt, st =>
    match faInner f innerFuel st [] none with
    | none => none
    | some (_, .ok (pubs, tot)) => some (.ok pubs tot attempt)
    | some (st1, .error e) =>
      let st2 : FAState := { st1 with last_err := some e }
      if attempt < maxA then
        faOuter f innerFuel maxA rem (attempt + 1) st2
      else
        some (.fail (orFetchFailed (some e)) st2.last_status attempt)

/-- `fetch_all_publications(page, org_id, max_attempts=maxA, ...)`. -/
def fetch_all_publications (f : Fetch) (maxA innerFuel : Nat) : Option FAResult :=
  faOuter f innerFuel maxA maxA 1 { callIdx := 0, last_err := none, last_status := none }



/-! ## Ledger records and ledger lines -/

/-- A parsed publications-ledger record, with the fields accessed by
`retry_epo_publications_errors.py`.  `Option`-valued fields model an
absent (or `null`) key; `error`/`retried` model the truthiness of the
corresponding key (absent ⇒ `false`). -/
structure PubRec where
  org_id : Option String := none
  name : Option String := none
  role : Option String := none
  error : Bool := false
  message : Option String := none
  http_status : Option Int := none
  total : Option Int := none
  publications : Option (List String) := none
  publication_count : Option Nat := none
  extraction_timestamp : Option String := none
  retried : Bool := false
  retry_attempts : Option Int := none
deriving DecidableEq, Repr

/-- A parsed websites-ledger record, with the fields accessed by
`read_done_company_ids`. -/
structure WebRec where
  company_id : Option String := none
  id_field : Option String := none
deriving DecidableEq, Repr

/-- One physical line of a JSONL ledger file:
* `blank` — a line whose `strip()` is empty;
* `malformed` — a non-blank line on which `json.loads` raises;
* `record r` — a line parsing to the JSON object `r` (serialisation of a
  record object is abstracted away: writing `r` and re-parsing yields `r`). -/
inductive LedgerLine (α : Type) where
  | blank : LedgerLine α
  | malformed : LedgerLine α
  | record (r : α) : LedgerLine α
deriving DecidableEq, Repr

/-- Python's `str.strip()`: drop leading and trailing whitespace. -/
def pyStrip (s : String) : String :=
  String.mk (((s.toList.dropWhile Char.isWhitespace).reverse.dropWhile Char.isWhitespace).reverse)

/-- `str(obj.get("org_id") or "").strip()` (lines 72 and 179): an absent,
`null` or empty `org_id` yields `""`, and whitespace is stripped. -/
def normId (r : PubRec) : String :=
  pyStrip (r.org_id.getD "")

/-- Decidable equality for `Except`, so that concrete runs of the embedded
fallible functions can be checked by `decide`. -/
def exceptDecEq {ε α : Type} [DecidableEq ε] [DecidableEq α] : DecidableEq (Except ε α) :=
  fun a b =>
    match a, b with
    | .error e, .error e' =>
      if h : e = e' then isTrue (by rw [h]) else isFalse (by intro hh; cases hh; exact h rfl)
    | .ok x, .ok y =>
      if h : x = y then isTrue (by rw [h]) else isFalse (by intro hh; cases hh; exact h rfl)
    | .error _, .ok _ => isFalse (by intro h; cases h)
    | .ok _, .error _ => isFalse (by intro h; cases h)

instance {ε α : Type} [DecidableEq ε] [DecidableEq α] : DecidableEq (Except ε α) :=
  exceptDecEq

/-! ## Progress-ledger done-set scans -/

/-- `load_done_ids` (`extract_epo_publications_batch.py`, lines 38–51):
every line is parsed inside a bare `try`; any failure (blank line, invalid
JSON) skips the line; a parsed record contributes its `org_id` when that
value is truthy (present, non-`null`, non-empty).  The `error` flag is
never consulted.  The returned list is read as a set (membership only). -/
def load_done_ids : List (LedgerLine PubRec) → List String
  | [] => []
  | .blank :: rest => load_done_ids rest
  | .malformed :: rest => load_done_ids rest
  | .record r :: rest =>
    match r.org_id with
    | some s => if s = "" then load_done_ids rest else s :: load_done_ids rest
    | none => load_done_ids rest

/-- `cid = obj.get("company_id") or obj.get("id")` (line 103): a falsy
(absent, `null`, empty) `company_id` falls through to the `id` key. -/
def webCid (r : WebRec) : Option String :=
  match r.company_id with
  | some c => if c = "" then r.id_field else some c
  | none => r.id_field

/-- `read_done_company_ids` (`run_website_enrichment_batches.py`,
lines 91–106): blank lines and lines failing `json.loads` are skipped;
a parsed record contributes `str(cid)` whenever `cid is not None`
(note: unlike `load_done_ids`, an empty-string id *is* collected). -/
def read_done_company_ids : List (LedgerLine WebRec) → List String
  | [] => []
  | .blank :: rest => read_done_company_ids rest
  | .malformed :: rest => read_done_company_ids rest
  | .record r :: rest =>
    match webCid r with
    | some s => s :: read_done_company_ids rest
    | none => read_done_company_ids rest

/-! ## Retry Patcher readers and rewrite
(`retry_epo_publications_errors.py`, lines 62–76 and 172–183). -/

/-- A replacement map `{org_id: record}`; Python dicts are modelled as
partial functions. -/
abbrev Repl := String → Option PubRec

/-- `load_error_records` (lines 62–76): blank lines are skipped; a line on
which `json.loads` raises aborts the whole function (the exception is not
caught); a parsed record is kept iff its `error` key is truthy and its
normalised `org_id` is non-empty, later records overwriting earlier ones. -/
def load_error_records : List (LedgerLine PubRec) → Repl → Except String Repl
  | [], acc => .ok acc
  | .blank :: rest, acc => load_error_records rest acc
  | .malformed :: _, _ => .error "JSONDecodeError"
  | .record r :: rest, acc =>
    if r.error = false then
      load_error_records rest acc
    else
      if normId r = "" then
        load_error_records rest acc
      else
        load_error_records rest (fun s => if s = normId r then some r else acc s)

/-- `rewrite_with_replacements` (lines 172–183): blank lines are skipped
(dropped from the output); a line on which `json.loads` raises aborts the
whole rewrite; any other line is written back — replaced by the serialised
replacement record when its normalised `org_id` is non-empty and is a key
of the replacement map, passed through unchanged otherwise. -/
def rewrite_with_replacements : List (LedgerLine PubRec) → Repl →
    Except String (List (LedgerLine PubRec))
  | [], _ => .ok []
  | .blank :: rest, repl => rewrite_with_replacements rest repl
  | .malformed :: _, _ => .error "JSONDecodeError"
  | .record r :: rest, repl =>
    let out : LedgerLine PubRec :=
      if normId r ≠ "" ∧ (repl (normId r)).isSome then
        .record ((repl (normId r)).getD r)
      else
        .record r
    (rewrite_with_replacements rest repl).map (fun tail => out :: tail)

/-- The per-line transformation performed by the rewrite on the lines it
keeps. -/
def replaceLine (repl : Repl) : LedgerLine PubRec → LedgerLine PubRec
  | .record r =>
    if normId r ≠ "" ∧ (repl (normId r)).isSome then
      .record ((repl (normId r)).getD r)
    else
      .record r
  | x => x

/-! ## Replacement-record construction
(`retry_epo_publications_errors.py`, `main`, lines 294–330). -/

/-- The replacement record built in `main` from a `fetch_all_publications`
result (lines 302–330).  `maxArg` is the raw `args.max_attempts` value
(used unclamped in the error branch's `retry_attempts` fallback). -/
def buildReplacement (org_id : String) (old : PubRec) (maxArg : Int) (ts : String) :
    FAResult → PubRec
  | .ok pubs tot attempt =>
    { org_id := some org_id
      name := old.name
      role := old.role
      total := some (tot.getD (pubs.length : Int))
      publications := some pubs
      publication_count := some pubs.length
      extraction_timestamp := some ts
      retried := true
      retry_attempts := some (if attempt = 0 then 1 else (attempt : Int)) }
  | .fail err status attempt =>
    { org_id := some org_id
      name := old.name
      role := old.role
      error := true
      http_status := status
      message := some (if err ≠ "" then err else
        match old.message with
        | some m => if m ≠ "" then m else "Fetch failed"
        | none => "Fetch failed")
      extraction_timestamp := some ts
      retried := true
      retry_attempts := some (if attempt = 0 then maxArg else (attempt : Int)) }

/-! ## Filesystem model and the patch write / atomic replace
(`retry_epo_publications_errors.py`, `main`, lines 341–354). -/

/-- A filesystem: path ↦ file content (a JSONL ledger, as parsed lines). -/
abbrev FS := String → Option (List (LedgerLine PubRec))

/-- Write (create or truncate-and-write) a file. -/
def setFile (fs : FS) (p : String) (c : List (LedgerLine PubRec)) : FS :=
  fun q => if q = p then some c else fs q

/-- Remove a file (the source side of `os.replace`). -/
def delFile (fs : FS) (p : String) : FS :=
  fun q => if q = p then none else fs q

/-- `tmp_out = out.with_suffix(out.suffix + ".tmp")` (line 342). -/
def tmpPath (out : String) : String :=
  out ++ ".tmp"

/-- `inp.with_suffix(inp.suffix + ".bak-<timestamp>")` (line 346). -/
def bakPath (inp ts : String) : String :=
  inp ++ ".bak-" ++ ts

/-- The tail of `main` (lines 341–354): write the patched content to the
temp path, then either (`--inplace`) copy the input to a timestamped backup
and `os.replace` the temp file over the input, or `os.replace` it over the
output path.  Returns the resulting filesystem and, when the rewrite raised,
the propagated error.  On the error path the temp file holds whatever
partial content `junk` the interrupted write left behind (the open with
mode `"w"` truncates it first), and nothing else is touched: the rename is
never attempted. -/
def patchFinish (fs : FS) (inp out : String) (inplace : Bool) (repl : Repl)
    (ts : String) (junk : List (LedgerLine PubRec)) : FS × Option String :=
  match rewrite_with_replacements ((fs inp).getD []) repl with
  | .error e => (setFile fs (tmpPath out) junk, some e)
  | .ok outLines =>
    let fs1 := setFile fs (tmpPath out) outLines
    if inplace then
      let fs2 := setFile fs1 (bakPath inp ts) ((fs1 inp).getD [])
      (setFile (delFile fs2 (tmpPath out)) inp outLines, none)
    else
      (setFile (delFile fs1 (tmpPath out)) out outLines, none)

/-! ## Work Partitioner
(`run_website_enrichment_batches.py`, lines 58–88). -/

/-- `shard_for_company_id` (lines 66–68): hash of the id reduced modulo
`max(1, shard_total)`.  `hash` stands for the external
`sha256_int` (SHA-256 of the UTF-8 id, read as an integer). -/
def shard_for_company_id (hash : String → Nat) (cid : String) (shard_total : Int) : Nat :=
  hash cid % (max 1 shard_total).toNat

/-- The shard validation and filtering portion of `load_eligible_company_ids`
(lines 80–88), applied to an already-loaded universe of eligible ids:
`shard_total` is clamped to at least 1 *before* the range check on
`shard_index`; when the (clamped) total is 1 no filtering happens at all. -/
def select_shard (hash : String → Nat) (univ : List String)
    (shard_index shard_total : Int) : Except String (List String) :=
  let st := max 1 shard_total
  if shard_index < 0 ∨ shard_index ≥ st then
    .error "Invalid shard"
  else
    if st > 1 then
      .ok (univ.filter (fun cid => (shard_for_company_id hash cid st : Int) == shard_index))
    else
      .ok univ

/-- The startup ordering of `main` in `run_website_enrichment_batches.py`
(lines 255–347): eligibility (including shard validation) is computed
first; the optional allow-list is intersected; the done-set is read from
the output ledger; only then does the batch loop (the only place any
network activity happens, via the `enrich_websites.py` subprocess) run.
The batch loop is abstracted as an arbitrary function `runBatches` of the
remaining ids — the theorem quantifying over it shows no network activity
can have occurred when startup fails. -/
def mainOrchestrator {β : Type} (hash : String → Nat) (univ : List String)
    (shard_index shard_total : Int) (allow : Option (List String))
    (ledger : List (LedgerLine WebRec)) (runBatches : List String → β) :
    Except String β :=
  match select_shard hash univ shard_index shard_total with
  | .error e => .error e
  | .ok sel =>
    let eligible := match allow with
      | some ids => sel.filter (fun s => ids.contains s)
      | none => sel
    let done := read_done_company_ids ledger
    .ok (runBatches (eligible.filter (fun s => !done.contains s)))

/-! ## The paginator behaviour stated by the specification -/

/-- Modelled from the spec's words (for comparison with the code):
"repeatedly invoke fetch with a continuation token (initially empty),
accumulate all yielded items, and stop when the response's continuation
token is empty OR the yielded item batch is empty".  `k` is the index of
the next page. -/
def specClaimPaginate (pages : Nat → RespData) : Nat → Nat → List String → Option (List String)
  | 0, _, _ => none
  | fuel + 1, k, acc =>
    let acc1 := acc ++ (pages k).publications
    if (pages k).nextPageToken = "" ∨ (pages k).publications = [] then
      some acc1
    else
      specClaimPaginate pages fuel (k + 1) acc1

/-! ## Remaining helper definitions used by the theorems -/

/-- Whether a ledger line is non-blank. -/
def notBlank {α : Type} : LedgerLine α → Bool
  | .blank => false
  | _ => true

/-- Concatenation, in order, of the item batches of pages `k, k+1, …,
k+m-1`. -/
def joinFrom (pages : Nat → RespData) : Nat → Nat → List String
  | _, 0 => []
  | k, m + 1 => (pages k).publications ++ joinFrom pages (k + 1) m

/-- Sum of the batch sizes of pages `k, …, k+m-1`. -/
def sumFrom (pages : Nat → RespData) : Nat → Nat → Nat
  | _, 0 => 0
  | k, m + 1 => (pages k).publications.length + sumFrom pages (k + 1) m

/-- A fetch call that "reports a non-success result (or raises)": the
`page.evaluate` call raised, or the JS result has a falsy `ok`, or its
`data` is `null` (which makes the batch extractor's processing raise). -/
def badCall (e : Except String JsResult) : Bool :=
  match e with
  | .error _ => true
  | .ok res => !res.ok || res.data.isNone

/-- The fetch capability induced by an infinite sequence of successful
responses: every call completes with HTTP 200 and the next page body. -/
def pagesFetch (pages : Nat → RespData) : Fetch :=
  fun k => .ok (mkOk (pages k))

/-- Fixture: a ledger record with org id `a`. -/
def recA : PubRec :=
  { org_id := some "a" }

/-- Fixture: a replacement record for org id `a`. -/
def recA' : PubRec :=
  { org_id := some "a", retried := true, publications := some ["p"], publication_count := some 1 }

/-- Fixture: an error ledger record with org id `b`. -/
def recB : PubRec :=
  { org_id := some "b", error := true, message := some "boom" }

/-- Fixture: a replacement map sending `a` to `recA'`. -/
def replA : Repl :=
  fun s => if s = "a" then some recA' else none

/-- Fixture: a page sequence whose first response has an empty item batch
but a non-empty continuation token. -/
def pagesEmptyBatch : Nat → RespData :=
  fun k => if k = 0 then { total := none, publications := [], nextPageToken := "t" }
           else { total := none, publications := ["a"], nextPageToken := "" }

/-- Fixture: three successful pages, the last with an empty token. -/
def pagesThree : Nat → RespData :=
  fun k =>
    if k = 0 then { total := some 3, publications := ["x"], nextPageToken := "t1" }
    else if k = 1 then { total := some 3, publications := ["y"], nextPageToken := "t2" }
    else { total := some 3, publications := ["z"], nextPageToken := "" }

/-- Fixture: a fetch whose first call fails (HTTP 500) and whose second
call succeeds with a single-page result `["b"]`. -/
def fetchRetryOnce : Fetch :=
  fun k =>
    if k = 0 then .ok { ok := false, status := some 500, error := none, data := none }
    else .ok (mkOk { total := none, publications := ["b"], nextPageToken := "" })

/-- Fixture: a fetch that always fails with a raised exception. -/
def fetchAlwaysRaise : Fetch :=
  fun _ => .error "net down"

/-- Fixture: a successful replacement record for org id `b`. -/
def recB' : PubRec :=
  { org_id := some "b", retried := true, publications := some ["q"],
    publication_count := some 1, retry_attempts := some 2 }

/-- Fixture: a replacement map sending `b` to `recB'`. -/
def replB : Repl :=
  fun s => if s = "b" then some recB' else none

/-- Fixture: a one-record filesystem holding the ledger `[recB]` at path
`"in"`. -/
def fsOne : FS :=
  fun p => if p = "in" then some [.record recB] else none

/-- Fixture: a filesystem holding a ledger with a malformed line at path
`"in"`. -/
def fsBad : FS :=
  fun p => if p = "in" then some [.record recA, .malformed] else none

/-! ## C1 — the Retry Patcher's rewrite -/

/-- C1 (counterexample): on a ledger containing a blank line, the rewrite
does *not* produce "the same lines in the same positions" — the blank line
is dropped.  With an empty replacement map every line should pass through
unchanged according to the claim, yet the output differs from the input. -/
theorem c1_counterexample :
    rewrite_with_replacements [LedgerLine.blank, LedgerLine.record recA] (fun _ => none)
      = Except.ok [LedgerLine.record recA] ∧
    rewrite_with_replacements [LedgerLine.blank, LedgerLine.record recA] (fun _ => none)
      ≠ Except.ok [LedgerLine.blank, LedgerLine.record recA] := by
  exact ⟨by decide, by decide⟩

/-- C1 (amended): whenever the rewrite succeeds, its output consists of the
input's non-blank lines, in the same relative positions, where a line whose
normalised `unit_id` is non-empty and is a key of the replacement map is
replaced by the serialised replacement record for that id, and every other
line passes through unchanged (blank lines are dropped; a malformed line
makes the rewrite fail instead, see C9). -/
theorem c1_rewrite_patch (l : List (LedgerLine PubRec)) (repl : Repl)
    (out : List (LedgerLine PubRec))
    (h : rewrite_with_replacements l repl = .ok out) :
    out = (l.filter notBlank).map (replaceLine repl) := by
  induction l generalizing out with
  | nil =>
    simp only [rewrite_with_replacements] at h
    cases h
    simp
  | cons hd tl ih =>
    cases hd with
    | blank =>
      simp only [rewrite_with_replacements] at h
      simpa [List.filter, notBlank] using ih _ h
    | malformed =>
      simp only [rewrite_with_replacements] at h
      cases h
    | record r =>
      simp only [rewrite_with_replacements] at h
      cases htl : rewrite_with_replacements tl repl with
      | error e =>
        rw [htl] at h
        simp [Except.map] at h
      | ok tail =>
        rw [htl] at h
        simp only [Except.map] at h
        cases h
        simp [List.filter, notBlank, List.map, replaceLine, ih _ htl]

/-- C1 (witness): the amended theorem at a concrete input — a two-record
ledger where the record with id `a` is replaced and the record with id `b`
passes through. -/
theorem c1_witness :
    rewrite_with_replacements [LedgerLine.record recA, LedgerLine.record recB] replA
      = Except.ok [LedgerLine.record recA', LedgerLine.record recB] ∧
    [LedgerLine.record recA', LedgerLine.record recB]
      = (([LedgerLine.record recA, LedgerLine.record recB] :
          List (LedgerLine PubRec)).filter notBlank).map (replaceLine replA) :=
  ⟨by decide, c1_rewrite_patch _ _ _ (by decide)⟩

/-! ## C5 — the done-set scans -/

/-- Characterisation of `load_done_ids`. -/
theorem mem_load_done_ids (l : List (LedgerLine PubRec)) (s : String) :
    s ∈ load_done_ids l ↔
      ∃ r : PubRec, LedgerLine.record r ∈ l ∧ r.org_id = some s ∧ s ≠ "" := by
  induction l with
  | nil => simp [load_done_ids]
  | cons hd tl ih =>
    cases hd with
    | blank => simp [load_done_ids, ih]
    | malformed => simp [load_done_ids, ih]
    | record r =>
      cases hor : r.org_id with
      | none =>
        simp only [load_done_ids, hor, ih, List.mem_cons]
        aesop
      | some v =>
        rcases eq_or_ne v "" with hv | hv
        · subst hv
          simp only [load_done_ids, hor, if_pos rfl, ih, List.mem_cons]
          aesop
        · simp only [load_done_ids, hor, if_neg hv, ih, List.mem_cons]
          aesop

/-- Characterisation of `read_done_company_ids`. -/
theorem mem_read_done_company_ids (l : List (LedgerLine WebRec)) (s : String) :
    s ∈ read_done_company_ids l ↔
      ∃ r : WebRec, LedgerLine.record r ∈ l ∧ webCid r = some s := by
  induction l with
  | nil => simp [read_done_company_ids]
  | cons hd tl ih =>
    cases hd with
    | blank => simp [read_done_company_ids, ih]
    | malformed => simp [read_done_company_ids, ih]
    | record r =>
      cases hc : webCid r with
      | none =>
        simp only [read_done_company_ids, hc, ih, List.mem_cons]
        aesop
      | some v =>
        simp only [read_done_company_ids, hc, ih, List.mem_cons]
        aesop

/-- C5: each done-set scan returns exactly the set of unit ids appearing in
some parseable record — success and error records alike (neither
characterisation mentions the `error` flag) — and blank or malformed lines
contribute nothing and never make the scan fail (the scans are total
functions on arbitrary ledgers).  For `load_done_ids` an id "appears" when
the record's `org_id` key holds it and it is truthy (non-empty); for
`read_done_company_ids` when `company_id`-falling-back-to-`id` yields it. -/
theorem c5_done_set_scan (lp : List (LedgerLine PubRec)) (lw : List (LedgerLine WebRec))
    (s : String) :
    (s ∈ load_done_ids lp ↔
      ∃ r : PubRec, LedgerLine.record r ∈ lp ∧ r.org_id = some s ∧ s ≠ "") ∧
    (s ∈ read_done_company_ids lw ↔
      ∃ r : WebRec, LedgerLine.record r ∈ lw ∧ webCid r = some s) :=
  ⟨mem_load_done_ids lp s, mem_read_done_company_ids lw s⟩

/-! ## C2 — temp-file write, backup and atomic replace -/

/-- The timestamped backup path differs from the input path. -/
theorem bakPath_ne (inp ts : String) : bakPath inp ts ≠ inp := by
  intro h
  have hlen := congrArg String.length h
  have hb : (".bak-").length = 5 := rfl
  simp only [bakPath, String.length_append] at hlen
  omega

/-- C2: the patched content is written to the temp path first.  If the
rewrite fails, the error propagates, the rename is never attempted, and
every file other than the temp file — in particular the original ledger —
is byte-for-byte unchanged.  If the rewrite succeeds in `--inplace` mode,
a timestamped backup holding the original content exists after the atomic
replace and the input path holds the rewritten ledger; in output mode the
destination path holds the rewritten ledger. -/
theorem c2_patch_atomicity (fs : FS) (inp out ts : String) (repl : Repl)
    (junk content : List (LedgerLine PubRec)) (hin : fs inp = some content) :
    (∀ e inplace, rewrite_with_replacements content repl = .error e →
      (patchFinish fs inp out inplace repl ts junk).2 = some e ∧
      ∀ p, p ≠ tmpPath out → (patchFinish fs inp out inplace repl ts junk).1 p = fs p) ∧
    (∀ o, rewrite_with_replacements content repl = .ok o → inp ≠ tmpPath out →
      (patchFinish fs inp out true repl ts junk).2 = none ∧
      (patchFinish fs inp out true repl ts junk).1 inp = some o ∧
      (bakPath inp ts ≠ tmpPath out →
        (patchFinish fs inp out true repl ts junk).1 (bakPath inp ts) = some content) ∧
      (patchFinish fs inp out false repl ts junk).2 = none ∧
      (patchFinish fs inp out false repl ts junk).1 out = some o) := by
  have hgd : (fs inp).getD [] = content := by rw [hin]; rfl
  constructor
  · intro e inplace he
    unfold patchFinish
    rw [hgd, he]
    refine ⟨rfl, ?_⟩
    intro p hp
    simp [setFile, hp]
  · intro o ho hne
    unfold patchFinish
    rw [hgd, ho]
    refine ⟨rfl, ?_, ?_, rfl, ?_⟩
    · simp [setFile]
    · intro hbk
      simp [setFile, delFile, bakPath_ne inp ts, hbk, hne, hin]
    · simp [setFile]

/-- C2 (witness): the theorem applied to a concrete one-record ledger and
a concrete malformed ledger.  In `--inplace` mode the input ends up holding
the patched line and the backup holds the original; in output mode the
destination holds the patched line; on the malformed ledger the rewrite
fails and the input file is unchanged. -/
theorem c2_witness :
    (patchFinish fsOne "in" "o" true replB "T" []).2 = none ∧
    (patchFinish fsOne "in" "o" true replB "T" []).1 "in" = some [LedgerLine.record recB'] ∧
    (patchFinish fsOne "in" "o" true replB "T" []).1 (bakPath "in" "T")
      = some [LedgerLine.record recB] ∧
    (patchFinish fsOne "in" "o" false replB "T" []).1 "o" = some [LedgerLine.record recB'] ∧
    (patchFinish fsBad "in" "o" true replB "T" []).2 = some "JSONDecodeError" ∧
    (patchFinish fsBad "in" "o" true replB "T" []).1 "in"
      = some [LedgerLine.record recA, LedgerLine.malformed] := by
  have hOne := (c2_patch_atomicity fsOne "in" "o" "T" replB [] [LedgerLine.record recB]
    (by decide)).2 [LedgerLine.record recB'] (by decide) (by decide)
  have hBad := (c2_patch_atomicity fsBad "in" "o" "T" replB []
    [LedgerLine.record recA, LedgerLine.malformed] (by decide)).1 "JSONDecodeError" true
    (by decide)
  refine ⟨hOne.1, hOne.2.1, ?_, hOne.2.2.2.2, hBad.1, ?_⟩
  · exact hOne.2.2.1 (by decide)
  · rw [hBad.2 "in" (by decide)]
    decide

/-! ## C9 — the Retry Patcher's readers are strict -/

/-- A malformed line aborts `load_error_records`, whatever the accumulator. -/
theorem load_error_records_malformed (l : List (LedgerLine PubRec))
    (hm : LedgerLine.malformed ∈ l) :
    ∀ acc, load_error_records l acc = .error "JSONDecodeError" := by
  induction l with
  | nil => cases hm
  | cons hd tl ih =>
    intro acc
    cases hd with
    | blank =>
      have hm' : LedgerLine.malformed ∈ tl := by
        rcases List.mem_cons.mp hm with h | h
        · cases h
        · exact h
      simpa [load_error_records] using ih hm' acc
    | malformed => rfl
    | record r =>
      have hm' : LedgerLine.malformed ∈ tl := by
        rcases List.mem_cons.mp hm with h | h
        · cases h
        · exact h
      simp only [load_error_records]
      split_ifs <;> exact ih hm' _

/-- A malformed line aborts the rewrite, whatever the replacement map. -/
theorem rewrite_malformed (l : List (LedgerLine PubRec)) (hm : LedgerLine.malformed ∈ l) :
    ∀ repl, rewrite_with_replacements l repl = .error "JSONDecodeError" := by
  induction l with
  | nil => cases hm
  | cons hd tl ih =>
    intro repl
    cases hd with
    | blank =>
      have hm' : LedgerLine.malformed ∈ tl := by
        rcases List.mem_cons.mp hm with h | h
        · cases h
        · exact h
      simpa [rewrite_with_replacements] using ih hm' repl
    | malformed => rfl
    | record r =>
      have hm' : LedgerLine.malformed ∈ tl := by
        rcases List.mem_cons.mp hm with h | h
        · cases h
        · exact h
      simp only [rewrite_with_replacements]
      rw [ih hm' repl]
      rfl

/-- C9: unlike the done-set scans, the Retry Patcher's readers raise on a
non-blank line that is not valid JSON: both the failed-record collection
and the rewrite abort with the JSON decode error, and patching such a
ledger aborts before the rename, leaving every file except the temp file
— in particular the original ledger — unchanged. -/
theorem c9_strict_readers (l : List (LedgerLine PubRec)) (repl acc : Repl)
    (hm : LedgerLine.malformed ∈ l) :
    load_error_records l acc = .error "JSONDecodeError" ∧
    rewrite_with_replacements l repl = .error "JSONDecodeError" ∧
    ∀ fs inp out inplace ts junk, fs inp = some l →
      (patchFinish fs inp out inplace repl ts junk).2 = some "JSONDecodeError" ∧
      ∀ p, p ≠ tmpPath out → (patchFinish fs inp out inplace repl ts junk).1 p = fs p := by
  refine ⟨load_error_records_malformed l hm acc, rewrite_malformed l hm repl, ?_⟩
  intro fs inp out inplace ts junk hin
  exact (c2_patch_atomicity fs inp out ts repl junk l hin).1 "JSONDecodeError" inplace
    (rewrite_malformed l hm repl)

/-- C9 (witness): a concrete ledger with a malformed second line. -/
theorem c9_witness :
    load_error_records [LedgerLine.record recA, LedgerLine.malformed] replB
      = .error "JSONDecodeError" ∧
    rewrite_with_replacements [LedgerLine.record recA, LedgerLine.malformed] replB
      = .error "JSONDecodeError" ∧
    (patchFinish fsBad "in" "o" true replB "T" []).1 "in"
      = some [LedgerLine.record recA, LedgerLine.malformed] := by
  have h := c9_strict_readers [LedgerLine.record recA, LedgerLine.malformed] replB
    replB (by decide)
  refine ⟨h.1, h.2.1, ?_⟩
  rw [(h.2.2 fsBad "in" "o" true "T" [] (by decide)).2 "in" (by decide)]
  decide

/-! ## C3 — shard partition completeness and disjointness -/

/-- The shard of an id lies strictly below the shard total. -/
theorem shard_for_lt (hash : String → Nat) (cid : String) (t : Int) (ht : 1 ≤ t) :
    (shard_for_company_id hash cid t : Int) < t := by
  have h1 : max 1 t = t := max_eq_right ht
  have h2 : 0 < t.toNat := by omega
  have h3 : hash cid % t.toNat < t.toNat := Nat.mod_lt _ h2
  simp only [shard_for_company_id, h1]
  omega

/-- Evaluation of `select_shard` on a valid shard configuration. -/
theorem select_shard_valid (hash : String → Nat) (univ : List String) (i t : Int)
    (ht : 1 ≤ t) (h0 : 0 ≤ i) (hlt : i < t) :
    select_shard hash univ i t =
      .ok (if 1 < t then
            univ.filter (fun cid => (shard_for_company_id hash cid t : Int) == i)
          else univ) := by
  have h1 : max 1 t = t := max_eq_right ht
  simp only [select_shard, h1]
  rw [if_neg (by omega)]
  by_cases hgt : 1 < t
  · rw [if_pos hgt, if_pos hgt]
  · rw [if_neg hgt, if_neg hgt]

/-- C3: for every hash function, every universe of unit ids and every
`shard_total ≥ 1`, the shard selections for the indices in
`[0, shard_total)` cover the whole universe and are pairwise disjoint. -/
theorem c3_shard_partition (hash : String → Nat) (univ : List String) (t : Int)
    (ht : 1 ≤ t) :
    (∀ id, id ∈ univ ↔ ∃ i : Int, 0 ≤ i ∧ i < t ∧ ∃ sel,
        select_shard hash univ i t = .ok sel ∧ id ∈ sel) ∧
    (∀ i j : Int, 0 ≤ i → i < t → 0 ≤ j → j < t → i ≠ j →
      ∀ si sj, select_shard hash univ i t = .ok si → select_shard hash univ j t = .ok sj →
        ∀ id, id ∈ si → id ∉ sj) := by
  constructor
  · intro id
    constructor
    · intro hid
      by_cases h1 : 1 < t
      · refine ⟨(shard_for_company_id hash id t : Int), Int.natCast_nonneg _,
          shard_for_lt hash id t ht, _, select_shard_valid hash univ _ t ht
            (Int.natCast_nonneg _) (shard_for_lt hash id t ht), ?_⟩
        rw [if_pos h1]
        exact List.mem_filter.mpr ⟨hid, by simp⟩
      · refine ⟨0, le_refl 0, by omega, _, select_shard_valid hash univ 0 t ht
          (le_refl 0) (by omega), ?_⟩
        rw [if_neg h1]
        exact hid
    · rintro ⟨i, h0, hlt, sel, hsel, hid⟩
      rw [select_shard_valid hash univ i t ht h0 hlt] at hsel
      cases hsel
      by_cases h1 : 1 < t
      · rw [if_pos h1] at hid
        exact (List.mem_filter.mp hid).1
      · rw [if_neg h1] at hid
        exact hid
  · intro i j h0i hlti h0j hltj hij si sj hsi hsj id hidi hidj
    by_cases h1 : 1 < t
    · rw [select_shard_valid hash univ i t ht h0i hlti, if_pos h1] at hsi
      rw [select_shard_valid hash univ j t ht h0j hltj, if_pos h1] at hsj
      cases hsi
      cases hsj
      have hi : (shard_for_company_id hash id t : Int) = i := by
        have := (List.mem_filter.mp hidi).2
        simpa using this
      have hj : (shard_for_company_id hash id t : Int) = j := by
        have := (List.mem_filter.mp hidj).2
        simpa using this
      exact hij (hi ▸ hj)
    · omega

/-- C3 (witness): the partition theorem at a concrete universe of two ids
with two shards, using the length function as the hash. -/
theorem c3_witness :
    (1 : Int) ≤ 2 ∧
    select_shard (fun s => s.length) ["a", "bb"] 0 2
      = .ok (["a", "bb"].filter
          (fun cid => ((shard_for_company_id (fun s => s.length) cid 2 : Int) == 0))) ∧
    ("a" ∈ ["a", "bb"] ↔ ∃ i : Int, 0 ≤ i ∧ i < 2 ∧ ∃ sel,
        select_shard (fun s => s.length) ["a", "bb"] i 2 = .ok sel ∧ "a" ∈ sel) :=
  ⟨by norm_num, by decide,
    (c3_shard_partition (fun s => s.length) ["a", "bb"] 2 (by norm_num)).1 "a"⟩

/-! ## C8 — invalid shard configuration fails before network activity -/

/-- C8 (counterexample): with `shard_total = 0` and `shard_index = 0` the
claim's antecedent `shard_index ≥ shard_total` holds, yet shard selection
succeeds instead of failing — the code clamps the total to 1 before
validating the index. -/
theorem c8_counterexample :
    (0 : Int) ≥ (0 : Int) ∧
    select_shard (fun _ => 0) ["a"] 0 0 = .ok ["a"] :=
  ⟨le_refl 0, by decide⟩

/-- C8 (amended): for every shard configuration with `shard_total ≥ 1` and
`shard_index < 0` or `shard_index ≥ shard_total`, shard selection fails
with the invalid-shard error, and the orchestrator's startup fails with
that error for *every* possible batch runner — no network activity can
have been performed. -/
theorem c8_fail_fast {β : Type} (hash : String → Nat) (univ : List String)
    (si st : Int) (allow : Option (List String)) (ledger : List (LedgerLine WebRec))
    (runBatches : List String → β) (ht : 1 ≤ st) (hbad : si < 0 ∨ si ≥ st) :
    select_shard hash univ si st = .error "Invalid shard" ∧
    mainOrchestrator hash univ si st allow ledger runBatches = .error "Invalid shard" := by
  have h1 : max 1 st = st := max_eq_right ht
  have hsel : select_shard hash univ si st = .error "Invalid shard" := by
    simp only [select_shard, h1]
    rw [if_pos hbad]
  refine ⟨hsel, ?_⟩
  simp only [mainOrchestrator, hsel]

/-- C8 (witness): the amended theorem at a concrete out-of-range
configuration (`shard_index = 5`, `shard_total = 2`) and a concrete batch
runner. -/
theorem c8_witness :
    (1 : Int) ≤ 2 ∧ ((5 : Int) < 0 ∨ (5 : Int) ≥ 2) ∧
    mainOrchestrator (fun _ => 0) ["a"] 5 2 none [] (fun l => l.length)
      = .error "Invalid shard" :=
  ⟨by norm_num, Or.inr (by norm_num),
    (c8_fail_fast (fun _ => 0) ["a"] 5 2 none [] (fun l => l.length) (by norm_num)
      (Or.inr (by norm_num))).2⟩

/-! ## C7 — the batch extractor's failure records -/

/-- A run of the batch extractor's loop yields an error record iff one of
the fetch calls it performed was bad. -/
theorem fetchPubsLoop_error_iff (f : Fetch) :
    ∀ fuel k acc r used, fetchPubsLoop f fuel k acc = some (r, used) →
      (r.isError = true ↔ ∃ j, k ≤ j ∧ j < k + used ∧ badCall (f j) = true) := by
  intro fuel
  induction fuel with
  | zero =>
    intro k acc r used h
    simp [fetchPubsLoop] at h
  | succ fuel ih =>
    intro k acc r used h
    simp only [fetchPubsLoop] at h
    split at h
    · rename_i e heq
      cases h
      constructor
      · intro _
        refine ⟨k, le_refl k, by omega, ?_⟩
        rw [heq]
        rfl
      · intro _
        rfl
    · rename_i res heq
      split at h
      · rename_i hok
        cases h
        constructor
        · intro _
          refine ⟨k, le_refl k, by omega, ?_⟩
          rw [heq]
          simp [badCall, hok]
        · intro _
          rfl
      · rename_i hok
        have hok' : res.ok = true := by
          revert hok
          cases res.ok <;> simp
        split at h
        · rename_i hd
          cases h
          constructor
          · intro _
            refine ⟨k, le_refl k, by omega, ?_⟩
            rw [heq]
            simp [badCall, hd]
          · intro _
            rfl
        · rename_i d hd
          split at h
          · rename_i hstop
            cases h
            constructor
            · intro hfalse
              exact absurd hfalse (by simp [EntityResult.isError])
            · rintro ⟨j, hj1, hj2, hb⟩
              have hjk : j = k := by omega
              subst hjk
              rw [heq] at hb
              simp [badCall, hok', hd] at hb
          · rename_i hstop
            split at h
            · cases h
            · rename_i r' used' hrec
              cases h
              rw [ih (k + 1) (acc ++ d.publications) _ _ hrec]
              constructor
              · rintro ⟨j, hj1, hj2, hb⟩
                exact ⟨j, by omega, by omega, hb⟩
              · rintro ⟨j, hj1, hj2, hb⟩
                rcases Nat.eq_or_lt_of_le hj1 with he | hlt
                · subst he
                  rw [heq] at hb
                  simp [badCall, hok', hd] at hb
                · exact ⟨j, by omega, by omega, hb⟩

/-- C7: the Cursor Paginator of the batch extractor returns a failed record
iff some fetch call it actually performed reported a non-success result or
raised (including a `null` response body, on which its processing raises);
the failed record has its `error` flag set and its `message` key present,
and the `message` key is present iff the record is a failure. -/
theorem c7_failure_iff (f : Fetch) (fuel : Nat) (r : EntityResult) (used : Nat)
    (h : fetch_publications_for_entity f fuel = some (r, used)) :
    (r.isError = true ↔ ∃ j, j < used ∧ badCall (f j) = true) ∧
    r.isError = r.hasMessageKey := by
  have h1 := fetchPubsLoop_error_iff f fuel 0 [] r used h
  constructor
  · simpa using h1
  · cases r <;> rfl

/-- C7 (witness): a fetch whose first call reports HTTP 500 yields a failed
record with the `error` flag and a present (here `null`-valued) `message`
key. -/
theorem c7_witness :
    fetch_publications_for_entity fetchRetryOnce 3
      = some (.httpFailure (some 500) none, 1) ∧
    ((EntityResult.httpFailure (some 500) none).isError = true ↔
      ∃ j, j < 1 ∧ badCall (fetchRetryOnce j) = true) ∧
    (EntityResult.httpFailure (some 500) none).isError
      = (EntityResult.httpFailure (some 500) none).hasMessageKey := by
  have h := c7_failure_iff fetchRetryOnce 3 (.httpFailure (some 500) none) 1 (by decide)
  exact ⟨by decide, h.1, h.2⟩

/-! ## C6 and C10 — the Retry Patcher's bounded attempts -/

/-- The attempt number recorded by `faOuter` stays within
`[attempt, maxA]`; since each recursive step performs exactly one inner
pagination attempt and increments `attempt`, the recorded attempt number
is the number of attempts performed. -/
theorem faOuter_attempt_bounds (f : Fetch) (fuel maxA : Nat) :
    ∀ rem attempt st r, attempt + rem = maxA + 1 → attempt ≤ maxA →
      faOuter f fuel maxA rem attempt st = some r →
      attempt ≤ r.attempt ∧ r.attempt ≤ maxA := by
  intro rem
  induction rem with
  | zero =>
    intro attempt st r hsum hle h
    omega
  | succ rem ih =>
    intro attempt st r hsum hle h
    simp only [faOuter] at h
    split at h
    · cases h
    · rename_i st1 pubs tot heq
      cases h
      exact ⟨le_refl _, hle⟩
    · rename_i st1 e heq
      split at h
      · rename_i hlt
        have hih := ih (attempt + 1) _ r (by omega) (by omega) h
        exact ⟨by omega, hih.2⟩
      · rename_i hlt
        cases h
        exact ⟨le_refl _, hle⟩

/-- A successful `faOuter` result is produced by a single inner pagination
run started from the *empty* accumulator. -/
theorem faOuter_ok_single_attempt (f : Fetch) (fuel maxA : Nat) :
    ∀ rem attempt st pubs tot a,
      faOuter f fuel maxA rem attempt st = some (.ok pubs tot a) →
      ∃ st0 st1, faInner f fuel st0 [] none = some (st1, .ok (pubs, tot)) := by
  intro rem
  induction rem with
  | zero =>
    intro attempt st pubs tot a h
    simp only [faOuter] at h
    simp at h
  | succ rem ih =>
    intro attempt st pubs tot a h
    simp only [faOuter] at h
    split at h
    · cases h
    · rename_i st1 p t heq
      simp only [Option.some.injEq, FAResult.ok.injEq] at h
      obtain ⟨hp, ht, _⟩ := h
      subst hp
      subst ht
      exact ⟨st, st1, heq⟩
    · rename_i st1 e heq
      split at h
      · exact ih _ _ _ _ _ h
      · simp at h

/-- C6: with a positive `max_attempts`, every `fetch_all_publications`
result records between 1 and `max_attempts` performed attempts, and the
replacement record built from it in `main` always carries `retried = true`
and the attempt count; it is a success-shaped record (no `error` flag,
with `publications` and `publication_count` present) when some attempt
succeeded, and an error record (`error = true`, still `retried = true`)
when all attempts failed. -/
theorem c6_retry_replacement (f : Fetch) (m fuel : Nat) (org_id ts : String)
    (old : PubRec) (maxArg : Int) (r : FAResult) (hm : 1 ≤ m)
    (h : fetch_all_publications f m fuel = some r) :
    1 ≤ r.attempt ∧ r.attempt ≤ m ∧
    (buildReplacement org_id old maxArg ts r).retried = true ∧
    (buildReplacement org_id old maxArg ts r).retry_attempts = some (r.attempt : Int) ∧
    (r.isOk = true → (buildReplacement org_id old maxArg ts r).error = false ∧
      ∀ pubs tot a, r = .ok pubs tot a →
        (buildReplacement org_id old maxArg ts r).publications = some pubs ∧
        (buildReplacement org_id old maxArg ts r).publication_count = some pubs.length) ∧
    (r.isOk = false → (buildReplacement org_id old maxArg ts r).error = true) := by
  have hb := faOuter_attempt_bounds f fuel m m 1 _ r (by omega) (by omega) h
  refine ⟨hb.1, hb.2, ?_, ?_, ?_, ?_⟩
  · cases r <;> rfl
  · cases r with
    | ok p t a =>
      have ha : ¬ a = 0 := by
        have h1 := hb.1
        simp only [FAResult.attempt] at h1
        omega
      simp [buildReplacement, FAResult.attempt, ha]
    | fail e s a =>
      have ha : ¬ a = 0 := by
        have h1 := hb.1
        simp only [FAResult.attempt] at h1
        omega
      simp [buildReplacement, FAResult.attempt, ha]
  · intro hok
    cases r with
    | fail e s a => simp [FAResult.isOk] at hok
    | ok p t a =>
      refine ⟨rfl, ?_⟩
      rintro pubs tot a' heq
      cases heq
      exact ⟨rfl, rfl⟩
  · intro hnok
    cases r with
    | ok p t a => simp [FAResult.isOk] at hnok
    | fail e s a => rfl

/-- C6 (witness): a fetch that raises on every call, with
`max_attempts = 2`, exhausts both attempts and yields an error replacement
record with `retried = true` and attempt count 2. -/
theorem c6_witness :
    fetch_all_publications fetchAlwaysRaise 2 3 = some (.fail "net down" none 2) ∧
    (buildReplacement "x" recB 2 "T" (FAResult.fail "net down" none 2)).retried = true ∧
    (buildReplacement "x" recB 2 "T" (FAResult.fail "net down" none 2)).error = true ∧
    (buildReplacement "x" recB 2 "T" (FAResult.fail "net down" none 2)).retry_attempts
      = some 2 ∧
    (FAResult.fail "net down" none 2).attempt ≤ 2 := by
  have h := c6_retry_replacement fetchAlwaysRaise 2 3 "x" "T" recB 2
    (FAResult.fail "net down" none 2) (by omega) (by decide)
  refine ⟨by decide, h.2.2.1, h.2.2.2.2.2 (by decide), ?_, h.2.1⟩
  simpa using h.2.2.2.1

/-- C10: in the Retry Patcher's paginated fetch the item accumulator is
re-initialised to empty at the start of every attempt: any successful
result's payload is exactly the harvest of one single inner pagination run
started from the empty accumulator — items fetched during earlier failed
attempts are never carried over or duplicated. -/
theorem c10_fresh_accumulator (f : Fetch) (maxA fuel : Nat) (pubs : List String)
    (tot : Option Int) (a : Nat)
    (h : fetch_all_publications f maxA fuel = some (.ok pubs tot a)) :
    ∃ st0 st1, faInner f fuel st0 [] none = some (st1, .ok (pubs, tot)) :=
  faOuter_ok_single_attempt f fuel maxA maxA 1 _ pubs tot a h

/-- C10 (witness): the first attempt fails (HTTP 500 raises), the second
succeeds with exactly the single page `["b"]` — the returned payload is
`["b"]` alone, reproducible by one inner run from the empty accumulator. -/
theorem c10_witness :
    fetch_all_publications fetchRetryOnce 2 3 = some (.ok ["b"] none 2) ∧
    ∃ st0 st1, faInner fetchRetryOnce 3 st0 [] none = some (st1, .ok (["b"], none)) :=
  ⟨by decide, c10_fresh_accumulator fetchRetryOnce 2 3 ["b"] none 2 (by decide)⟩

/-! ## C4 — cursor pagination -/

/-- The conditional extend `if batch: pubs.extend(batch)` always equals a
plain append. -/
theorem accIf_eq_append (l acc : List String) :
    (if l.isEmpty then acc else acc ++ l) = acc ++ l := by
  cases l <;> simp

/-- The length of a concatenation of page batches is the sum of the batch
sizes. -/
theorem joinFrom_length (pages : Nat → RespData) :
    ∀ m k, (joinFrom pages k m).length = sumFrom pages k m := by
  intro m
  induction m with
  | zero => intro k; rfl
  | succ m ih => intro k; simp [joinFrom, sumFrom, ih]

/-- The batch extractor's loop over an all-successful response sequence:
if the pages strictly before relative index `d` do not satisfy the stop
condition and page `d` does, the loop returns a success record holding the
accumulator followed by the items of pages `k … k+d`, having made `d + 1`
calls. -/
theorem fetchPubsLoop_pages (pages : Nat → RespData) :
    ∀ d fuel k acc,
      (∀ j, j < d → ¬((pages (k + j)).nextPageToken = "" ∨ (pages (k + j)).publications = [])) →
      ((pages (k + d)).nextPageToken = "" ∨ (pages (k + d)).publications = []) →
      d + 1 ≤ fuel →
      fetchPubsLoop (pagesFetch pages) fuel k acc
        = some (.success (acc ++ joinFrom pages k (d + 1)), d + 1) := by
  intro d
  induction d with
  | zero =>
    intro fuel k acc _ hstop hfuel
    obtain ⟨fuel', rfl⟩ : ∃ f', fuel = f' + 1 := ⟨fuel - 1, by omega⟩
    rw [Nat.add_zero] at hstop
    simp [fetchPubsLoop, pagesFetch, mkOk, hstop, joinFrom]
  | succ d ih =>
    intro fuel k acc hno hstop hfuel
    obtain ⟨fuel', rfl⟩ : ∃ f', fuel = f' + 1 := ⟨fuel - 1, by omega⟩
    have hk : ¬((pages k).nextPageToken = "" ∨ (pages k).publications = []) := by
      have h0 := hno 0 (by omega)
      rwa [Nat.add_zero] at h0
    have hno' : ∀ j, j < d →
        ¬((pages (k + 1 + j)).nextPageToken = "" ∨ (pages (k + 1 + j)).publications = []) := by
      intro j hj
      have := hno (j + 1) (by omega)
      rwa [show k + (j + 1) = k + 1 + j by omega] at this
    have hstop' : (pages (k + 1 + d)).nextPageToken = "" ∨ (pages (k + 1 + d)).publications = [] := by
      rwa [show k + (d + 1) = k + 1 + d by omega] at hstop
    have hrec := ih fuel' (k + 1) (acc ++ (pages k).publications) hno' hstop' (by omega)
    simp only [fetchPubsLoop, pagesFetch, mkOk]
    rw [if_neg hk]
    simp only [pagesFetch, mkOk] at hrec
    rw [hrec]
    simp [joinFrom]
  
/-- The Retry Patcher's inner pagination loop over an all-successful
response sequence: it stops at the first response with an empty token,
accumulating the batches of every page up to and including it (regardless
of empty batches along the way). -/
theorem faInner_pages (pages : Nat → RespData) :
    ∀ d fuel st acc tot,
      (∀ j, j < d → (pages (st.callIdx + j)).nextPageToken ≠ "") →
      (pages (st.callIdx + d)).nextPageToken = "" →
      d + 1 ≤ fuel →
      ∃ st1 tot1, faInner (pagesFetch pages) fuel st acc tot
        = some (st1, .ok (acc ++ joinFrom pages st.callIdx (d + 1), tot1)) := by
  intro d
  induction d with
  | zero =>
    intro fuel st acc tot _ hstop hfuel
    obtain ⟨fuel', rfl⟩ : ∃ f', fuel = f' + 1 := ⟨fuel - 1, by omega⟩
    rw [Nat.add_zero] at hstop
    refine ⟨{ st with callIdx := st.callIdx + 1 },
      if tot = none ∧ (pages st.callIdx).total.isSome then (pages st.callIdx).total else tot, ?_⟩
    simp [faInner, pagesFetch, mkOk, hstop, accIf_eq_append, joinFrom]
  | succ d ih =>
    intro fuel st acc tot hno hstop hfuel
    obtain ⟨fuel', rfl⟩ : ∃ f', fuel = f' + 1 := ⟨fuel - 1, by omega⟩
    have hk : (pages st.callIdx).nextPageToken ≠ "" := by
      have h0 := hno 0 (by omega)
      rwa [Nat.add_zero] at h0
    have hno' : ∀ j, j < d →
        (pages ((⟨st.callIdx + 1, st.last_err, st.last_status⟩ : FAState).callIdx + j)).nextPageToken ≠ "" := by
      intro j hj
      have := hno (j + 1) (by omega)
      rwa [show st.callIdx + (j + 1) = st.callIdx + 1 + j by omega] at this
    have hstop' :
        (pages ((⟨st.callIdx + 1, st.last_err, st.last_status⟩ : FAState).callIdx + d)).nextPageToken = "" := by
      rwa [show st.callIdx + (d + 1) = st.callIdx + 1 + d by omega] at hstop
    obtain ⟨st2, tot2, hrec⟩ := ih fuel' ⟨st.callIdx + 1, st.last_err, st.last_status⟩
      (acc ++ (pages st.callIdx).publications)
      (if tot = none ∧ (pages st.callIdx).total.isSome then (pages st.callIdx).total else tot)
      hno' hstop' (by omega)
    refine ⟨st2, tot2, ?_⟩
    simp only [faInner, pagesFetch, mkOk, Option.getD_some, accIf_eq_append]
    rw [if_neg hk]
    simp only [pagesFetch, mkOk] at hrec
    rw [hrec]
    simp [joinFrom]

/-- C4 (counterexample): the Retry Patcher's paginator does *not* stop at a
response whose item batch is empty when the continuation token is
non-empty.  On a first page with no items but token `"t"`, the claimed
behaviour (`specClaimPaginate`, the spec's words) stops immediately with an
empty payload, while `fetch_all_publications` keeps following the token and
returns the second page's item. -/
theorem c4_counterexample :
    fetch_all_publications (pagesFetch pagesEmptyBatch) 1 3 = some (.ok ["a"] none 1) ∧
    specClaimPaginate pagesEmptyBatch 3 0 [] = some [] ∧
    (["a"] : List String) ≠ [] :=
  ⟨by decide, by decide, by decide⟩

/-- C4 (amended): over any all-successful response sequence, the batch
extractor's paginator starts from an empty token and stops at the first
response whose continuation token is empty OR whose item batch is empty,
returning a success record whose payload is the concatenation of all
fetched pages' items in order, with item count equal to the sum of the
page sizes; the Retry Patcher's paginator instead stops only at the first
response whose continuation token is empty (an empty batch with a
non-empty token does not stop it), likewise returning the concatenation of
all its fetched pages' items with the matching count. -/
theorem c4_paginator_concat (pA pB : Nat → RespData) (n m fuel innerFuel maxA : Nat)
    (hnoA : ∀ j, j < n → ¬((pA j).nextPageToken = "" ∨ (pA j).publications = []))
    (hstopA : (pA n).nextPageToken = "" ∨ (pA n).publications = [])
    (hfA : n + 1 ≤ fuel)
    (hnoB : ∀ j, j < m → (pB j).nextPageToken ≠ "")
    (hstopB : (pB m).nextPageToken = "")
    (hfB : m + 1 ≤ innerFuel) (hmA : 1 ≤ maxA) :
    (fetch_publications_for_entity (pagesFetch pA) fuel
        = some (.success (joinFrom pA 0 (n + 1)), n + 1) ∧
      (joinFrom pA 0 (n + 1)).length = sumFrom pA 0 (n + 1)) ∧
    (∃ tot, fetch_all_publications (pagesFetch pB) maxA innerFuel
        = some (.ok (joinFrom pB 0 (m + 1)) tot 1)) := by
  refine ⟨⟨?_, joinFrom_length pA (n + 1) 0⟩, ?_⟩
  · have h := fetchPubsLoop_pages pA n fuel 0 [] (by simpa using hnoA) (by simpa using hstopA) hfA
    simpa [fetch_publications_for_entity] using h
  · obtain ⟨rem, hrem⟩ : ∃ r, maxA = r + 1 := ⟨maxA - 1, by omega⟩
    obtain ⟨st1, tot1, heq⟩ := faInner_pages pB m innerFuel ⟨0, none, none⟩ [] none
      (by simpa using hnoB) (by simpa using hstopB) hfB
    refine ⟨tot1, ?_⟩
    rw [hrem]
    simp only [fetch_all_publications, faOuter]
    rw [heq]
    simp

/-- C4 (witness): the amended theorem at the concrete three-page sequence
— both paginators return the three pages' items concatenated, with count
3 = 1 + 1 + 1. -/
theorem c4_witness :
    (fetch_publications_for_entity (pagesFetch pagesThree) 5
        = some (.success (joinFrom pagesThree 0 3), 3) ∧
      (joinFrom pagesThree 0 3).length = sumFrom pagesThree 0 3) ∧
    (∃ tot, fetch_all_publications (pagesFetch pagesThree) 4 5
        = some (.ok (joinFrom pagesThree 0 3) tot 1)) :=
  c4_paginator_concat pagesThree pagesThree 2 2 5 5 4
    (by decide) (by decide) (by omega) (by decide) (by decide) (by omega) (by omega)
